import Mathlib

/-!
Verification development for a consent-gated proxy re-encryption (PRE) record
sharing system.  The embedding follows the Python sources:

* `mock_blockchain.py` — identity registry, record registry, consent state
  machine and audit log (`MockBlockchain`);
* `crypto_utils.py` — the PRE engine wrapper (`CryptoManager`);
* `phase_simulator.py` — the orchestrator (`PhaseSimulator`), phases 1–8;
* `simulate.py` — the end-to-end scenario (`run_full_simulation`).

Modelling conventions:
* identifiers, content locators and status strings are `String`, as in the
  source; byte strings are symbolic `Blob`s;
* wall-clock timestamps (`created_at`, `updated_at`, `registered_at`,
  audit-entry timestamps) and the execution-time returns of each operation are
  performance instrumentation, declared out of scope by the design; they are
  omitted, and each operation instead returns the explicit post state paired
  with an `Except String Unit` outcome (`raise ValueError` becomes `.error`,
  leaving the pre state as the post state, exactly as an exception raised
  before any mutation does);
* Python dict assignment `m[k] = v` is modelled as prepending `(k, v)` to an
  association list read through first-match lookup (`mfind`), which is
  observationally the insert-or-overwrite dict semantics.
-/

/-- First-match lookup in an association list: the model of Python
`dict.get` / `in` on the string-keyed registries of `MockBlockchain`. -/
def mfind {α : Type} (m : List (String × α)) (k : String) : Option α :=
  match m with
  | [] => none
  | (k', v) :: rest => if k' = k then some v else mfind rest k

theorem mfind_nil {α : Type} (k : String) : mfind ([] : List (String × α)) k = none := rfl

theorem mfind_cons_self {α : Type} (m : List (String × α)) (k : String) (v : α) :
    mfind ((k, v) :: m) k = some v := by
  simp [mfind]

theorem mfind_cons_ne {α : Type} (m : List (String × α)) (k k' : String) (v : α)
    (h : k' ≠ k) : mfind ((k', v) :: m) k = mfind m k := by
  simp [mfind, h]

/-- `Role` from `mock_blockchain.py` (`PATIENT`, `DOCTOR`, `VIEWER`). -/
inductive Role
  | patient
  | doctor
  | viewer
deriving DecidableEq, Repr

/-- `Role.value`: the string payload of each enum member. -/
def roleValue : Role → String
  | .patient => "Patient"
  | .doctor => "Doctor"
  | .viewer => "Viewer"

/-! ### Symbolic PRE primitives

`crypto_utils.py` delegates the actual cryptography to the external pyUmbral
library, which the design treats as an interface contract only.  The
primitives below are modelled from the spec: `Encapsulate`, `DeriveReKeyFragments`,
`ReEncrypt`, `VerifyFragment` and `DecryptFragmented` are represented
symbolically — a capsule records the encapsulating public key and the
encapsulation randomness, a ciphertext is bound to its capsule, a kfrag
records the (delegating, signing, receiving) key triple, and a cfrag records
the kfrag and the capsule it was derived from.  Verification and fragmented
decryption succeed exactly when these bindings match, which is the
correctness contract of §6. -/

/-- Key pairs are symbolic: a secret key is a `Nat` and `pkOf` is its public
counterpart (modelled from the spec: `KeyGen() -> (sk, pk)`). -/
def pkOf (sk : Nat) : Nat := sk

/-- Modelled from the spec: the opaque key-encapsulation object produced at
encryption time, bound to one recipient public key and one randomized
encapsulation (`nonce`). -/
structure Capsule where
  pk : Nat
  nonce : Nat
deriving DecidableEq, Repr

/-- Modelled from the spec: a ciphertext is decryptable exactly with its own
capsule; `payload` is the underlying plaintext bytes. -/
structure Ciphertext where
  cap : Capsule
  payload : List Nat
deriving DecidableEq, Repr

/-- Modelled from the spec: a re-encryption key fragment recording the
delegating, signing and receiving public keys it was derived for. -/
structure KFrag where
  delegating_pk : Nat
  signing_pk : Nat
  receiving_pk : Nat
deriving DecidableEq, Repr

/-- Modelled from the spec: a re-encrypted capsule fragment, recording the
kfrag used and the capsule it was derived from. -/
structure CFrag where
  kf : KFrag
  cap : Capsule
deriving DecidableEq, Repr

/-- The byte strings handled by the system: raw data, serialized ciphertexts
and serialized cfrags (serialization is modelled as the identity). -/
inductive Blob
  | raw (data : List Nat)
  | cipher (ct : Ciphertext)
  | frag (cf : CFrag)
deriving DecidableEq, Repr

/-- `CryptoManager.compute_hash` (SHA-256 hexdigest).  Modelled from the spec
as an ideal, collision-free hash: the hash value is represented by the hashed
content itself, so equal hashes mean equal content. -/
def compute_hash (b : Blob) : Blob := b

/-- `pre.encrypt(recipient_public_key, data)` of `CryptoManager.encrypt`,
modelled from the spec with explicit encapsulation randomness `nonce`. -/
def preEncrypt (pk : Nat) (nonce : Nat) (data : List Nat) : Capsule × Ciphertext :=
  (⟨pk, nonce⟩, ⟨⟨pk, nonce⟩, data⟩)

/-- `CryptoManager.generate_reencryption_key`: `pre.generate_kfrags` with
`threshold=1, shares=1`, the signer being the owner's own key, so the single
kfrag records `(pkOf owner_sk, pkOf owner_sk, viewer_pk)`. -/
def generate_reencryption_key (owner_sk : Nat) (viewer_pk : Nat) : KFrag :=
  ⟨pkOf owner_sk, pkOf owner_sk, viewer_pk⟩

/-- `CryptoManager.reencrypt`: `pre.reencrypt(kfrag, capsule)`, a proxy-safe
operation producing the cfrag bound to this kfrag and capsule. -/
def reencrypt (cap : Capsule) (kf : KFrag) : CFrag := ⟨kf, cap⟩

/-- Modelled from the spec: `cfrag.verify(capsule, verifying_pk,
delegating_pk, receiving_pk)` succeeds exactly when the cfrag was derived
from this capsule with a kfrag matching the three keys. -/
def cfragChecks (cf : CFrag) (cap : Capsule) (verifying delegating receiving : Nat) : Prop :=
  cf.cap = cap ∧ cf.kf.signing_pk = verifying ∧
    cf.kf.delegating_pk = delegating ∧ cf.kf.receiving_pk = receiving

instance (cf : CFrag) (cap : Capsule) (a b c : Nat) :
    Decidable (cfragChecks cf cap a b c) := by
  unfold cfragChecks
  infer_instance

/-- Modelled from the spec: `pre.decrypt_reencrypted(receiving_sk,
delegating_pk, capsule, verified_cfrags, ciphertext)` recovers the plaintext
exactly when the ciphertext belongs to the capsule, the capsule encapsulates
to the delegating key, and the cfrag delegates from that key to the
receiver's key. -/
def decrypt_reencrypted (receiving_sk delegating_pk : Nat) (cap : Capsule)
    (cf : CFrag) (ct : Ciphertext) : Except String (List Nat) :=
  if ct.cap = cap ∧ cap.pk = delegating_pk ∧ cf.cap = cap ∧
      cf.kf.delegating_pk = delegating_pk ∧ cf.kf.receiving_pk = pkOf receiving_sk then
    .ok ct.payload
  else
    .error "decryption failed"

/-! ### MockBlockchain (`mock_blockchain.py`) -/

/-- `User` dataclass (the `registered_at` timestamp is omitted, see header). -/
structure User where
  user_id : String
  role : Role
  public_key : Nat
deriving DecidableEq, Repr

/-- `Record` dataclass (the `stored_at` timestamp is omitted). -/
structure Record where
  record_id : String
  owner_vid : String
  uploader_vid : String
  cid : String
  hash : Blob
deriving DecidableEq, Repr

/-- `Consent` dataclass (timestamps omitted); `status` is one of
`"requested"`, `"approved"`, `"revoked"` as in the source. -/
structure Consent where
  owner_vid : String
  viewer_vid : String
  record_id : String
  status : String
  capsule_cid : Option String
  capsule_hash : Option Blob
deriving DecidableEq, Repr

/-- `AuditEntry` of `MockBlockchain._log_audit` (timestamp omitted). -/
structure AuditEntry where
  action : String
  details : List (String × String)
deriving DecidableEq, Repr

/-- The `MockBlockchain` state: `users`, `records`, `consents`, `audit_log`. -/
structure BC where
  users : List (String × User)
  records : List (String × Record)
  consents : List (String × Consent)
  audit_log : List AuditEntry
deriving DecidableEq, Repr

/-- The fresh state produced by `MockBlockchain.reset`. -/
def BC.empty : BC := ⟨[], [], [], []⟩

/-- The consent-map key `f"(owner):(viewer):(record)"` built with `:` as the
separator, exactly as in `request_access`/`approve_access`/`revoke_access`/
`get_consent`. -/
def consentKey (owner_vid viewer_vid record_id : String) : String :=
  owner_vid ++ ":" ++ viewer_vid ++ ":" ++ record_id

/-- `MockBlockchain.register_user` (PHASE 1). -/
def register_user (bc : BC) (user_id : String) (role : Role) (public_key : Nat) :
    BC × Except String Unit :=
  match mfind bc.users user_id with
  | some _ => (bc, .error ("User " ++ user_id ++ " already registered"))
  | none =>
    ({ bc with
        users := (user_id, ⟨user_id, role, public_key⟩) :: bc.users
        audit_log := bc.audit_log ++
          [⟨"registration", [("user_id", user_id), ("role", roleValue role)]⟩] },
     .ok ())

/-- `MockBlockchain.store_record` (PHASE 4). -/
def store_record (bc : BC) (record_id owner_vid uploader_vid cid : String)
    (file_hash : Blob) : BC × Except String Unit :=
  match mfind bc.records record_id with
  | some _ => (bc, .error ("Record " ++ record_id ++ " already exists"))
  | none =>
    ({ bc with
        records := (record_id, ⟨record_id, owner_vid, uploader_vid, cid, file_hash⟩) ::
          bc.records
        audit_log := bc.audit_log ++
          [⟨"store_record", [("record_id", record_id), ("owner_vid", owner_vid),
            ("uploader_vid", uploader_vid), ("cid", cid)]⟩] },
     .ok ())

/-- `MockBlockchain.get_record`. -/
def get_record (bc : BC) (record_id : String) : Option Record :=
  mfind bc.records record_id

/-- `MockBlockchain.request_access` (PHASE 5). -/
def request_access (bc : BC) (owner_vid viewer_vid record_id : String) :
    BC × Except String Unit :=
  match mfind bc.consents (consentKey owner_vid viewer_vid record_id) with
  | some _ =>
    (bc, .error ("Consent already exists for " ++ consentKey owner_vid viewer_vid record_id))
  | none =>
    ({ bc with
        consents := (consentKey owner_vid viewer_vid record_id,
          ⟨owner_vid, viewer_vid, record_id, "requested", none, none⟩) :: bc.consents
        audit_log := bc.audit_log ++
          [⟨"request_access", [("owner_vid", owner_vid), ("viewer_vid", viewer_vid),
            ("record_id", record_id)]⟩] },
     .ok ())

/-- `MockBlockchain.approve_access` (PHASE 6): requires the consent entry for
the triple's key to exist, then overwrites its status with `"approved"` and
records the fragment locator and hash. -/
def approve_access (bc : BC) (owner_vid viewer_vid record_id : String)
    (capsule_cid : String) (capsule_hash : Blob) : BC × Except String Unit :=
  match mfind bc.consents (consentKey owner_vid viewer_vid record_id) with
  | none =>
    (bc, .error ("Consent not found for " ++ consentKey owner_vid viewer_vid record_id))
  | some c =>
    ({ bc with
        consents := (consentKey owner_vid viewer_vid record_id,
          { c with
            status := "approved"
            capsule_cid := some capsule_cid
            capsule_hash := some capsule_hash }) :: bc.consents
        audit_log := bc.audit_log ++
          [⟨"approve_access", [("owner_vid", owner_vid), ("viewer_vid", viewer_vid),
            ("record_id", record_id), ("capsule_cid", capsule_cid)]⟩] },
     .ok ())

/-- `MockBlockchain.revoke_access` (PHASE 8): requires the consent entry for
the triple's key to exist, then overwrites its status with `"revoked"` and
clears the fragment locator and hash. -/
def revoke_access (bc : BC) (owner_vid viewer_vid record_id : String) :
    BC × Except String Unit :=
  match mfind bc.consents (consentKey owner_vid viewer_vid record_id) with
  | none =>
    (bc, .error ("Consent not found for " ++ consentKey owner_vid viewer_vid record_id))
  | some c =>
    ({ bc with
        consents := (consentKey owner_vid viewer_vid record_id,
          { c with
            status := "revoked"
            capsule_cid := none
            capsule_hash := none }) ::
          bc.consents
        audit_log := bc.audit_log ++
          [⟨"revoke_access", [("owner_vid", owner_vid), ("viewer_vid", viewer_vid),
            ("record_id", record_id)]⟩] },
     .ok ())

/-- `MockBlockchain.get_consent`. -/
def get_consent (bc : BC) (owner_vid viewer_vid record_id : String) : Option Consent :=
  mfind bc.consents (consentKey owner_vid viewer_vid record_id)

/-! ### Content store (`ipfs_manager.py`)

The IPFS daemon is an external collaborator; its contract (§6) is
upload-then-download-by-locator.  Locators are modelled as fresh identifiers
issued by a counter (content addressing itself is external); the MFS mirror,
pinning and filename bookkeeping are non-authoritative observability concerns
and are omitted. -/

/-- The content identifier issued for the `n`-th upload. -/
def cidOf (n : Nat) : String := "cid" ++ Nat.repr n

/-- The content store state: stored blobs by locator plus the upload counter. -/
structure IPFS where
  store : List (String × Blob)
  next : Nat
deriving DecidableEq, Repr

/-- `IPFSManager.upload`: persist the blob under a fresh locator and return it. -/
def ipfsUpload (st : IPFS) (b : Blob) : IPFS × String :=
  (⟨(cidOf st.next, b) :: st.store, st.next + 1⟩, cidOf st.next)

/-- `IPFSManager.download`: fetch by locator, failing with `NotFound` when the
locator is unknown to the store. -/
def ipfsDownload (st : IPFS) (cid : String) : Except String Blob :=
  match mfind st.store cid with
  | some b => .ok b
  | none => .error ("NotFound: " ++ cid)

/-! ### PRE engine viewer path (`crypto_utils.py`) -/

/-- The observable content-store and cryptographic actions of the retrieval
path, used to state in which order (if at all) they are performed. -/
inductive Ev
  | downloadEv (cid : String)
  | hashCheckCipher (ok : Bool)
  | hashCheckFrag (ok : Bool)
  | verifyFrag (ok : Bool)
  | decryptFrag
deriving DecidableEq, Repr

/-- `CryptoManager.decrypt_with_cfrag`: deserialize the cfrag, verify it
against the original capsule with the owner's key as both verifying and
delegating key and the viewer's own public key as receiving key
(`cfrag.verify(capsule, owner_pk, owner_pk, viewer_pk)`, raising on failure),
and only then invoke `pre.decrypt_reencrypted`.  The second component records
the cryptographic actions actually performed, in order. -/
def decrypt_with_cfrag (ciphertext : Blob) (original_capsule : Capsule)
    (cfrag_bytes : Blob) (viewer_sk : Nat) (owner_pk : Nat) :
    Except String (List Nat) × List Ev :=
  match cfrag_bytes with
  | .frag cf =>
    if cfragChecks cf original_capsule owner_pk owner_pk (pkOf viewer_sk) then
      match ciphertext with
      | .cipher ct =>
        (decrypt_reencrypted viewer_sk owner_pk original_capsule cf ct,
         [.verifyFrag true, .decryptFrag])
      | _ => (.error "invalid ciphertext bytes", [.verifyFrag true, .decryptFrag])
    else
      (.error "cfrag verification failed", [.verifyFrag false])
  | _ => (.error "invalid cfrag bytes", [])

/-! ### Orchestrator (`phase_simulator.py`) -/

/-- The `PhaseSimulator` state: the mock blockchain, the key files written by
`CryptoManager.generate_keypair` (modelled as a map from user id to secret
key; the public key is `pkOf` of it), the content store, and the retained
original-capsule cache `capsule_storage`. -/
structure SimState where
  blockchain : BC
  keys : List (String × Nat)
  ipfs : IPFS
  capsule_storage : List (String × Capsule)
deriving DecidableEq, Repr

/-- The state produced by `PhaseSimulator.reset` (with an empty content
store). -/
def initState : SimState := ⟨BC.empty, [], ⟨[], 0⟩, []⟩

/-- `phase1_user_registration`: generate and save the key pair (the fresh
secret key is the `sk` argument, standing for the key-generation randomness),
then register the user on the blockchain.  The key files are written before
the registration check, as in the source. -/
def phase1_user_registration (st : SimState) (user_id : String) (role : Role)
    (sk : Nat) : SimState × Except String Unit :=
  match register_user st.blockchain user_id role (pkOf sk) with
  | (bc', r) =>
    ({ st with
        keys := (user_id, sk) :: st.keys
        blockchain := bc' }, r)

/-- `phase2_data_encryption`: load the patient's public key, encrypt the data
under it (with encapsulation randomness `nonce`), hash the ciphertext, and
retain the original capsule in `capsule_storage` under `record_id` when one
is given, otherwise under `patient_id`.  Returns (ciphertext, capsule,
cipher_hash). -/
def phase2_data_encryption (st : SimState) (data : List Nat) (patient_id : String)
    (record_id : Option String) (nonce : Nat) :
    SimState × Except String (Ciphertext × Capsule × Blob) :=
  match mfind st.keys patient_id with
  | none => (st, .error ("Public key not found for " ++ patient_id))
  | some sk =>
    match preEncrypt (pkOf sk) nonce data with
    | (capsule, ciphertext) =>
      ({ st with
          capsule_storage := (record_id.getD patient_id, capsule) :: st.capsule_storage },
       .ok (ciphertext, capsule, compute_hash (.cipher ciphertext)))

/-- `phase3_ipfs_storage`: upload the original data and then the ciphertext;
return the encrypted content's locator (filename/MFS labeling omitted). -/
def phase3_ipfs_storage (st : SimState) (ciphertext : Ciphertext)
    (original_data : List Nat) : SimState × String :=
  match ipfsUpload st.ipfs (.raw original_data) with
  | (i1, _) =>
    match ipfsUpload i1 (.cipher ciphertext) with
    | (i2, encrypted_cid) => ({ st with ipfs := i2 }, encrypted_cid)

/-- `phase4_onchain_storage`: store the record metadata on the blockchain. -/
def phase4_onchain_storage (st : SimState) (record_id owner_vid uploader_vid cid : String)
    (cipher_hash : Blob) : SimState × Except String Unit :=
  match store_record st.blockchain record_id owner_vid uploader_vid cid cipher_hash with
  | (bc', r) => ({ st with blockchain := bc' }, r)

/-- `phase5_access_request`: the viewer's access request. -/
def phase5_access_request (st : SimState) (owner_vid viewer_vid record_id : String) :
    SimState × Except String Unit :=
  match request_access st.blockchain owner_vid viewer_vid record_id with
  | (bc', r) => ({ st with blockchain := bc' }, r)

/-- `phase6_consent_approval_pre`: resolve the original capsule (from the
argument or, when absent, from `capsule_storage[record_id]`, failing when
neither is available), load the owner's private and the viewer's public key,
derive the kfrag, re-encrypt the capsule into a cfrag, upload the cfrag,
hash it, and approve the consent with the fragment's locator and hash.
Returns (capsule_cid, capsule_hash). -/
def phase6_consent_approval_pre (st : SimState) (owner_vid viewer_vid record_id : String)
    (original_capsule : Option Capsule) : SimState × Except String (String × Blob) :=
  match original_capsule.orElse (fun _ => mfind st.capsule_storage record_id) with
  | none => (st, .error ("Original capsule not found for record " ++ record_id))
  | some capsule =>
    match mfind st.keys owner_vid with
    | none => (st, .error ("Private key not found for " ++ owner_vid))
    | some owner_sk =>
      match mfind st.keys viewer_vid with
      | none => (st, .error ("Public key not found for " ++ viewer_vid))
      | some viewer_sk =>
        match ipfsUpload st.ipfs
            (.frag (reencrypt capsule (generate_reencryption_key owner_sk (pkOf viewer_sk)))) with
        | (ipfs', capsule_cid) =>
          match approve_access st.blockchain owner_vid viewer_vid record_id capsule_cid
              (compute_hash (.frag (reencrypt capsule
                (generate_reencryption_key owner_sk (pkOf viewer_sk))))) with
          | (bc', .ok _) =>
            ({ st with
                ipfs := ipfs'
                blockchain := bc' },
             .ok (capsule_cid,
               compute_hash (.frag (reencrypt capsule
                 (generate_reencryption_key owner_sk (pkOf viewer_sk))))))
          | (bc', .error e) =>
            ({ st with
                ipfs := ipfs'
                blockchain := bc' }, .error e)

/-- `phase7_data_retrieval_decryption`: check the consent (must exist and be
`"approved"`), look up the record, download the ciphertext and the cfrag,
verify both hashes against the registry-recorded values, resolve the
original capsule, load the viewer's private and the owner's public key, and
decrypt via `decrypt_with_cfrag`.  The second component records the
content-store and cryptographic actions performed, in order; state is not
mutated. -/
def phase7_data_retrieval_decryption (st : SimState) (viewer_vid record_id owner_vid : String)
    (original_capsule : Option Capsule) : Except String (List Nat) × List Ev :=
  match get_consent st.blockchain owner_vid viewer_vid record_id with
  | none =>
    (.error ("Consent not approved for " ++ consentKey owner_vid viewer_vid record_id), [])
  | some consent =>
    if consent.status ≠ "approved" then
      (.error ("Consent not approved for " ++ consentKey owner_vid viewer_vid record_id), [])
    else
      match get_record st.blockchain record_id with
      | none => (.error ("Record " ++ record_id ++ " not found"), [])
      | some record =>
        match ipfsDownload st.ipfs record.cid with
        | .error e => (.error e, [.downloadEv record.cid])
        | .ok ciphertext =>
          match consent.capsule_cid with
          | none => (.error "NotFound: no capsule cid", [.downloadEv record.cid])
          | some ccid =>
            match ipfsDownload st.ipfs ccid with
            | .error e => (.error e, [.downloadEv record.cid, .downloadEv ccid])
            | .ok cfrag_data =>
              if compute_hash ciphertext ≠ record.hash then
                (.error "Ciphertext hash mismatch",
                 [.downloadEv record.cid, .downloadEv ccid, .hashCheckCipher false])
              else if some (compute_hash cfrag_data) ≠ consent.capsule_hash then
                (.error "Capsule hash mismatch",
                 [.downloadEv record.cid, .downloadEv ccid, .hashCheckCipher true,
                  .hashCheckFrag false])
              else
                match original_capsule.orElse
                    (fun _ => mfind st.capsule_storage record_id) with
                | none =>
                  (.error ("Original capsule not found for record " ++ record_id),
                   [.downloadEv record.cid, .downloadEv ccid, .hashCheckCipher true,
                    .hashCheckFrag true])
                | some capsule =>
                  match mfind st.keys viewer_vid with
                  | none =>
                    (.error ("Private key not found for " ++ viewer_vid),
                     [.downloadEv record.cid, .downloadEv ccid, .hashCheckCipher true,
                      .hashCheckFrag true])
                  | some viewer_sk =>
                    match mfind st.keys owner_vid with
                    | none =>
                      (.error ("Public key not found for " ++ owner_vid),
                       [.downloadEv record.cid, .downloadEv ccid, .hashCheckCipher true,
                        .hashCheckFrag true])
                    | some owner_sk =>
                      match decrypt_with_cfrag ciphertext capsule cfrag_data viewer_sk
                          (pkOf owner_sk) with
                      | (res, tr) =>
                        (res,
                         [.downloadEv record.cid, .downloadEv ccid, .hashCheckCipher true,
                          .hashCheckFrag true] ++ tr)

/-- `phase8_access_revocation`: the owner's revocation. -/
def phase8_access_revocation (st : SimState) (owner_vid viewer_vid record_id : String) :
    SimState × Except String Unit :=
  match revoke_access st.blockchain owner_vid viewer_vid record_id with
  | (bc', r) => ({ st with blockchain := bc' }, r)

/-- `HybridSimulation.run_full_simulation` (`simulate.py`), up to retrieval:
register patient, doctor and viewer; encrypt under the patient's key with the
record id as capsule-storage key; upload to the content store; bind the
record on chain; viewer requests; owner approves (passing the retained
original capsule, as the source does); viewer retrieves (again passing the
retained capsule).  Returns the retrieval outcome and its action trace; an
error in an earlier phase propagates with an empty trace.  `skP`, `skD`,
`skV` are the key-generation randomness of the three registrations and
`nonce` the encapsulation randomness. -/
def runScenario (patient_id doctor_id viewer_id record_id : String) (data : List Nat)
    (skP skD skV nonce : Nat) : Except String (List Nat) × List Ev :=
  match phase1_user_registration initState patient_id .patient skP with
  | (_, .error e) => (.error e, [])
  | (s1, .ok _) =>
  match phase1_user_registration s1 doctor_id .doctor skD with
  | (_, .error e) => (.error e, [])
  | (s2, .ok _) =>
  match phase1_user_registration s2 viewer_id .viewer skV with
  | (_, .error e) => (.error e, [])
  | (s3, .ok _) =>
  match phase2_data_encryption s3 data patient_id (some record_id) nonce with
  | (_, .error e) => (.error e, [])
  | (s4, .ok (ciphertext, capsule, cipher_hash)) =>
  match phase3_ipfs_storage s4 ciphertext data with
  | (s5, encrypted_cid) =>
  match phase4_onchain_storage s5 record_id patient_id doctor_id encrypted_cid cipher_hash with
  | (_, .error e) => (.error e, [])
  | (s6, .ok _) =>
  match phase5_access_request s6 patient_id viewer_id record_id with
  | (_, .error e) => (.error e, [])
  | (s7, .ok _) =>
  match phase6_consent_approval_pre s7 patient_id viewer_id record_id (some capsule) with
  | (_, .error e) => (.error e, [])
  | (s8, .ok _) =>
  phase7_data_retrieval_decryption s8 viewer_id record_id patient_id (some capsule)

/-! ### Shared helper lemmas -/

/-- Unfolding `String` equality to equality of the underlying character
lists. -/
theorem string_data_inj {a b : String} (h : a.data = b.data) : a = b := by
  cases a
  cases b
  exact congrArg String.mk h

/-- Splitting a list at its first `':'`: when neither prefix part contains
`':'`, the decomposition around the separator is unique. -/
theorem colon_split_inj : ∀ (a b c d : List Char), ':' ∉ a → ':' ∉ b →
    a ++ ':' :: c = b ++ ':' :: d → a = b ∧ c = d := by
  intro a
  induction a with
  | nil =>
    intro b c d _ hb h
    cases b with
    | nil => simpa using h
    | cons x bs =>
      simp only [List.nil_append, List.cons_append, List.cons.injEq] at h
      exact absurd (h.1 ▸ List.mem_cons_self x bs) hb
  | cons x as ih =>
    intro b c d ha hb h
    cases b with
    | nil =>
      simp only [List.nil_append, List.cons_append, List.cons.injEq] at h
      exact absurd (h.1 ▸ List.mem_cons_self x as) ha
    | cons y bs =>
      simp only [List.cons_append, List.cons.injEq] at h
      have ha' : ':' ∉ as := fun hmem => ha (List.mem_cons_of_mem x hmem)
      have hb' : ':' ∉ bs := fun hmem => hb (List.mem_cons_of_mem y hmem)
      obtain ⟨h1, h2⟩ := ih bs c d ha' hb' h.2
      exact ⟨by rw [h.1, h1], h2⟩

/-- An identifier that contains no `':'` separator character. -/
def NoColon (s : String) : Prop := ':' ∉ s.data

instance (s : String) : Decidable (NoColon s) := by
  unfold NoColon
  infer_instance

/-- On colon-free owner and viewer identifiers, the colon-joined consent key
is injective in the triple. -/
theorem consentKey_inj (o v r o' v' r' : String)
    (ho : NoColon o) (hv : NoColon v) (ho' : NoColon o') (hv' : NoColon v')
    (h : consentKey o v r = consentKey o' v' r') : o = o' ∧ v = v' ∧ r = r' := by
  have hd : o.data ++ ':' :: (v.data ++ ':' :: r.data) =
      o'.data ++ ':' :: (v'.data ++ ':' :: r'.data) := by
    have h' := congrArg String.data h
    simpa [consentKey, String.data_append] using h'
  obtain ⟨h1, h2⟩ := colon_split_inj _ _ _ _ ho ho' hd
  obtain ⟨h3, h4⟩ := colon_split_inj _ _ _ _ hv hv' h2
  exact ⟨string_data_inj h1, string_data_inj h3, string_data_inj h4⟩

/-- A concrete blockchain state holding one user, one record and one
requested consent, used to instantiate the state-machine theorems. -/
def wBC : BC :=
  ⟨[("u", ⟨"u", .patient, 5⟩)],
   [("R", ⟨"R", "o", "d", "c", .raw []⟩)],
   [("o:v:r", ⟨"o", "v", "r", "requested", none, none⟩)],
   []⟩

/-! ### Claims about the consent state machine and registries -/

/-- C7: whenever `register_user`, `store_record`, `request_access`,
`approve_access` or `revoke_access` fails its precondition check (duplicate
id, duplicate record, existing consent, or missing consent), it raises the
corresponding error and returns the state exactly as it was: no user, record
or consent entry is created or modified and no audit entry is appended. -/
theorem c7_precondition_failure_no_side_effects (bc : BC) :
    (∀ user_id role pk u, mfind bc.users user_id = some u →
      register_user bc user_id role pk =
        (bc, .error ("User " ++ user_id ++ " already registered"))) ∧
    (∀ record_id o u cid hsh rec, mfind bc.records record_id = some rec →
      store_record bc record_id o u cid hsh =
        (bc, .error ("Record " ++ record_id ++ " already exists"))) ∧
    (∀ o v r c, mfind bc.consents (consentKey o v r) = some c →
      request_access bc o v r =
        (bc, .error ("Consent already exists for " ++ consentKey o v r))) ∧
    (∀ o v r cid hsh, mfind bc.consents (consentKey o v r) = none →
      approve_access bc o v r cid hsh =
        (bc, .error ("Consent not found for " ++ consentKey o v r))) ∧
    (∀ o v r, mfind bc.consents (consentKey o v r) = none →
      revoke_access bc o v r =
        (bc, .error ("Consent not found for " ++ consentKey o v r))) := by
  refine ⟨?_, ?_, ?_, ?_, ?_⟩
  · intro user_id role pk u h
    simp [register_user, h]
  · intro record_id o u cid hsh rec h
    simp [store_record, h]
  · intro o v r c h
    simp [request_access, h]
  · intro o v r cid hsh h
    simp [approve_access, h]
  · intro o v r h
    simp [revoke_access, h]

/-- Witness for C7 at a concrete state: all five precondition failures leave
`wBC` unchanged. -/
theorem c7_witness :
    register_user wBC "u" .doctor 9 = (wBC, .error "User u already registered") ∧
    store_record wBC "R" "o2" "d2" "c2" (.raw [1]) =
      (wBC, .error "Record R already exists") ∧
    request_access wBC "o" "v" "r" =
      (wBC, .error "Consent already exists for o:v:r") ∧
    approve_access wBC "x" "y" "z" "c" (.raw []) =
      (wBC, .error "Consent not found for x:y:z") ∧
    revoke_access wBC "x" "y" "z" = (wBC, .error "Consent not found for x:y:z") := by
  have h := c7_precondition_failure_no_side_effects wBC
  exact ⟨h.1 "u" .doctor 9 ⟨"u", .patient, 5⟩ (by decide),
    h.2.1 "R" "o2" "d2" "c2" (.raw [1]) ⟨"R", "o", "d", "c", .raw []⟩ (by decide),
    h.2.2.1 "o" "v" "r" ⟨"o", "v", "r", "requested", none, none⟩ (by decide),
    h.2.2.2.1 "x" "y" "z" "c" (.raw []) (by decide),
    h.2.2.2.2 "x" "y" "z" (by decide)⟩

/-- C8: `request_access` creates a `"requested"` consent entry for the
triple's key when that key has no entry yet, and fails with the
already-exists error whenever the key already has an entry — whatever its
status, so in particular also when it is `"revoked"`. -/
theorem c8_request_creates_or_rejects (bc : BC) (o v r : String) :
    (mfind bc.consents (consentKey o v r) = none →
      (request_access bc o v r).2 = .ok () ∧
      get_consent (request_access bc o v r).1 o v r =
        some ⟨o, v, r, "requested", none, none⟩) ∧
    (∀ c, mfind bc.consents (consentKey o v r) = some c →
      request_access bc o v r =
        (bc, .error ("Consent already exists for " ++ consentKey o v r))) := by
  constructor
  · intro h
    simp [request_access, get_consent, h, mfind_cons_self]
  · intro c h
    simp [request_access, h]

/-- Witness for C8: on `wBC` a fresh triple is created in `"requested"`
status, and the occupied triple `("o","v","r")` — and, after revocation, the
then-`"revoked"` same triple — is rejected. -/
theorem c8_witness :
    ((request_access wBC "o" "v" "r2").2 = .ok () ∧
      get_consent (request_access wBC "o" "v" "r2").1 "o" "v" "r2" =
        some ⟨"o", "v", "r2", "requested", none, none⟩) ∧
    request_access (revoke_access wBC "o" "v" "r").1 "o" "v" "r" =
      ((revoke_access wBC "o" "v" "r").1,
        .error ("Consent already exists for " ++ consentKey "o" "v" "r")) := by
  refine ⟨(c8_request_creates_or_rejects wBC "o" "v" "r2").1 (by decide), ?_⟩
  exact (c8_request_creates_or_rejects (revoke_access wBC "o" "v" "r").1 "o" "v" "r").2
    ⟨"o", "v", "r", "revoked", none, none⟩ (by decide)

/-- C9 is refuted on the code: `store_record` never consults the user
registry, so a record whose `owner_vid` is not a registered principal is
stored successfully.  Concretely, on the empty blockchain (no registered
users at all) storing a record owned by `"ghost"` succeeds and creates the
entry. -/
theorem c9_counterexample :
    mfind BC.empty.users "ghost" = none ∧
    (store_record BC.empty "R1" "ghost" "up" "c" (.raw [])).2 = .ok () ∧
    get_record (store_record BC.empty "R1" "ghost" "up" "c" (.raw [])).1 "R1" =
      some ⟨"R1", "ghost", "up", "c", .raw []⟩ :=
  ⟨rfl, rfl, rfl⟩

/-- C9 amended: `store_record` checks only that `record_id` is not already
present; it performs no check that `owner_vid` (or `uploader_vid`) references
a registered principal, so for any user registry whatsoever — including one
in which the owner is absent — storing a fresh record succeeds and creates
the entry. -/
theorem c9_amended_store_checks_only_record_uniqueness (bc : BC)
    (rid o u cid : String) (hsh : Blob)
    (hfresh : mfind bc.records rid = none) :
    (store_record bc rid o u cid hsh).2 = .ok () ∧
    get_record (store_record bc rid o u cid hsh).1 rid = some ⟨rid, o, u, cid, hsh⟩ := by
  simp [store_record, get_record, hfresh, mfind_cons_self]

/-- Witness for the amended C9: a record owned by the unregistered
`"nobody"` is stored on `wBC`. -/
theorem c9_amended_witness :
    (store_record wBC "R9" "nobody" "up" "c9" (.raw [7])).2 = .ok () ∧
    get_record (store_record wBC "R9" "nobody" "up" "c9" (.raw [7])).1 "R9" =
      some ⟨"R9", "nobody", "up", "c9", .raw [7]⟩ :=
  c9_amended_store_checks_only_record_uniqueness wBC "R9" "nobody" "up" "c9" (.raw [7])
    (by decide)

/-- C1 is refuted on the code: `approve_access` only checks that an entry
exists for the triple's key, not that its status is `"requested"` or
`"approved"`.  Concretely, after request and revoke the entry is
`"revoked"`, yet approve succeeds and transitions it to `"approved"` — a
REVOKED → APPROVED transition. -/
theorem c1_counterexample :
    (get_consent (revoke_access (request_access BC.empty "o" "v" "r").1 "o" "v" "r").1
      "o" "v" "r").map Consent.status = some "revoked" ∧
    (approve_access (revoke_access (request_access BC.empty "o" "v" "r").1 "o" "v" "r").1
      "o" "v" "r" "cid" (.raw [])).2 = .ok () ∧
    (get_consent (approve_access
      (revoke_access (request_access BC.empty "o" "v" "r").1 "o" "v" "r").1
      "o" "v" "r" "cid" (.raw [])).1 "o" "v" "r").map Consent.status = some "approved" :=
  ⟨rfl, rfl, rfl⟩

/-- C1 amended: `approve_access` fails with the not-found error exactly when
the triple's key has no consent entry, and succeeds whenever any entry
exists — regardless of its status, including `"revoked"` — transitioning it
to `"approved"` and recording the fragment locator and hash. -/
theorem c1_amended_approve_requires_only_existence (bc : BC) (o v r cid : String)
    (hsh : Blob) :
    (mfind bc.consents (consentKey o v r) = none →
      approve_access bc o v r cid hsh =
        (bc, .error ("Consent not found for " ++ consentKey o v r))) ∧
    (∀ c, mfind bc.consents (consentKey o v r) = some c →
      (approve_access bc o v r cid hsh).2 = .ok () ∧
      get_consent (approve_access bc o v r cid hsh).1 o v r =
        some { c with
          status := "approved"
          capsule_cid := some cid
          capsule_hash := some hsh }) := by
  constructor
  · intro h
    simp [approve_access, h]
  · intro c h
    simp [approve_access, get_consent, h, mfind_cons_self]

/-- Witness for the amended C1: approving the missing triple `("x","y","z")`
on `wBC` fails, and approving the revoked triple `("o","v","r")` succeeds
and turns it `"approved"`. -/
theorem c1_amended_witness :
    approve_access wBC "x" "y" "z" "cid" (.raw []) =
      (wBC, .error ("Consent not found for " ++ consentKey "x" "y" "z")) ∧
    ((approve_access (revoke_access wBC "o" "v" "r").1 "o" "v" "r" "cid" (.raw [])).2 =
        .ok () ∧
      get_consent (approve_access (revoke_access wBC "o" "v" "r").1
          "o" "v" "r" "cid" (.raw [])).1 "o" "v" "r" =
        some ⟨"o", "v", "r", "approved", some "cid", some (.raw [])⟩) :=
  ⟨(c1_amended_approve_requires_only_existence wBC "x" "y" "z" "cid" (.raw [])).1
      (by decide),
    (c1_amended_approve_requires_only_existence (revoke_access wBC "o" "v" "r").1
      "o" "v" "r" "cid" (.raw [])).2
      ⟨"o", "v", "r", "revoked", none, none⟩ (by decide)⟩

/-- C2 is refuted on the code for arbitrary id strings: the consent key is
the colon-joined triple, so distinct triples whose components contain `':'`
can collide.  `("a:b","c","r")` and `("a","b:c","r")` are distinct triples
with the same key, and after `("a:b","c","r")` requests, `get_consent` for
`("a","b:c","r")` returns the entry belonging to the other triple. -/
theorem c2_counterexample :
    consentKey "a:b" "c" "r" = consentKey "a" "b:c" "r" ∧
    (("a:b", "c", "r") : String × String × String) ≠ ("a", "b:c", "r") ∧
    (get_consent (request_access BC.empty "a:b" "c" "r").1 "a" "b:c" "r").map
      Consent.owner_vid = some "a:b" :=
  ⟨rfl, by decide, rfl⟩

/-- C2 amended: provided the owner and viewer identifiers are colon-free,
distinct triples address distinct consent entries: their keys differ, and
`request_access`, `approve_access` and `revoke_access` on one triple leave
`get_consent` of any other triple unchanged (in particular they never
create, modify or return the other triple's entry). -/
theorem c2_amended_distinct_triples_distinct_entries
    (o v r o' v' r' : String) (bc : BC) (cid : String) (hsh : Blob)
    (ho : NoColon o) (hv : NoColon v) (ho' : NoColon o') (hv' : NoColon v')
    (hne : (o, v, r) ≠ ((o', v', r') : String × String × String)) :
    consentKey o v r ≠ consentKey o' v' r' ∧
    get_consent (request_access bc o v r).1 o' v' r' = get_consent bc o' v' r' ∧
    get_consent (approve_access bc o v r cid hsh).1 o' v' r' = get_consent bc o' v' r' ∧
    get_consent (revoke_access bc o v r).1 o' v' r' = get_consent bc o' v' r' := by
  have hkey : consentKey o v r ≠ consentKey o' v' r' := by
    intro h
    obtain ⟨h1, h2, h3⟩ := consentKey_inj o v r o' v' r' ho hv ho' hv' h
    exact hne (by rw [h1, h2, h3])
  refine ⟨hkey, ?_, ?_, ?_⟩
  · unfold request_access
    cases hm : mfind bc.consents (consentKey o v r) with
    | some c => simp [get_consent]
    | none => simp [get_consent, mfind_cons_ne _ _ _ _ hkey]
  · unfold approve_access
    cases hm : mfind bc.consents (consentKey o v r) with
    | some c => simp [get_consent, mfind_cons_ne _ _ _ _ hkey]
    | none => simp [get_consent]
  · unfold revoke_access
    cases hm : mfind bc.consents (consentKey o v r) with
    | some c => simp [get_consent, mfind_cons_ne _ _ _ _ hkey]
    | none => simp [get_consent]

/-- Witness for the amended C2 at concrete colon-free triples on `wBC`. -/
theorem c2_amended_witness :
    consentKey "o" "v" "r" ≠ consentKey "o" "v" "r2" ∧
    get_consent (request_access wBC "o" "v" "r").1 "o" "v" "r2" =
      get_consent wBC "o" "v" "r2" ∧
    get_consent (approve_access wBC "o" "v" "r" "cid" (.raw [])).1 "o" "v" "r2" =
      get_consent wBC "o" "v" "r2" ∧
    get_consent (revoke_access wBC "o" "v" "r").1 "o" "v" "r2" =
      get_consent wBC "o" "v" "r2" :=
  c2_amended_distinct_triples_distinct_entries "o" "v" "r" "o" "v" "r2" wBC "cid"
    (.raw []) (by decide) (by decide) (by decide) (by decide) (by decide)

/-- C3: when `revoke_access` succeeds for a triple, the entry is `"revoked"`
with its fragment locator and hash cleared, and on any simulator state
carrying the post-revocation blockchain, retrieval for that triple —
whatever retained capsule the caller still passes in — fails at the
consent-status check with an empty action trace: no content download, no
hash verification and no cryptographic operation is performed. -/
theorem c3_revocation_blocks_retrieval_before_crypto (bc bc' : BC) (o v r : String)
    (hrev : revoke_access bc o v r = (bc', .ok ())) :
    (∃ c, get_consent bc' o v r = some c ∧ c.status = "revoked" ∧
      c.capsule_cid = none ∧ c.capsule_hash = none) ∧
    (∀ st : SimState, st.blockchain = bc' → ∀ oc : Option Capsule,
      phase7_data_retrieval_decryption st v r o oc =
        (.error ("Consent not approved for " ++ consentKey o v r), [])) := by
  unfold revoke_access at hrev
  cases hm : mfind bc.consents (consentKey o v r) with
  | none =>
    rw [hm] at hrev
    exact absurd (congrArg Prod.snd hrev) (by simp)
  | some c =>
    rw [hm] at hrev
    have hbc' : bc' = { bc with
        consents := (consentKey o v r,
          { c with
            status := "revoked"
            capsule_cid := none
            capsule_hash := none }) :: bc.consents
        audit_log := bc.audit_log ++
          [⟨"revoke_access", [("owner_vid", o), ("viewer_vid", v),
            ("record_id", r)]⟩] } := (congrArg Prod.fst hrev).symm
    constructor
    · refine ⟨{ c with
          status := "revoked"
          capsule_cid := none
          capsule_hash := none }, ?_, rfl, rfl, rfl⟩
      rw [hbc']
      simp [get_consent, mfind_cons_self]
    · intro st hst oc
      have hcons : get_consent st.blockchain o v r =
          some { c with
            status := "revoked"
            capsule_cid := none
            capsule_hash := none } := by
        rw [hst, hbc']
        simp [get_consent, mfind_cons_self]
      unfold phase7_data_retrieval_decryption
      rw [hcons]
      simp

/-- Witness for C3: revoking the requested triple of `wBC` succeeds, yields
a cleared `"revoked"` entry, and retrieval on a simulator state carrying the
post-revocation blockchain fails with an empty trace. -/
theorem c3_witness :
    (∃ c, get_consent (revoke_access wBC "o" "v" "r").1 "o" "v" "r" = some c ∧
      c.status = "revoked" ∧ c.capsule_cid = none ∧ c.capsule_hash = none) ∧
    (∀ st : SimState, st.blockchain = (revoke_access wBC "o" "v" "r").1 →
      ∀ oc : Option Capsule,
        phase7_data_retrieval_decryption st "v" "r" "o" oc =
          (.error ("Consent not approved for " ++ consentKey "o" "v" "r"), [])) :=
  c3_revocation_blocks_retrieval_before_crypto wBC (revoke_access wBC "o" "v" "r").1
    "o" "v" "r" rfl

/-- C10: when `phase2_data_encryption` is invoked without a `record_id`, the
retained capsule is stored in `capsule_storage` under the `patient_id` key;
encryption succeeds, yet a later approval for that data that resolves the
retained capsule by `record_id` (phase 6 with no capsule argument) fails
with the capsule-not-found error. -/
theorem c10_capsule_keyed_by_patient_breaks_later_lookup (st : SimState)
    (data : List Nat) (patient_id record_id owner_vid viewer_vid : String)
    (nonce sk : Nat)
    (hk : mfind st.keys patient_id = some sk)
    (hne : record_id ≠ patient_id)
    (hcs : mfind st.capsule_storage record_id = none) :
    (phase2_data_encryption st data patient_id none nonce).2 =
      .ok (⟨⟨pkOf sk, nonce⟩, data⟩, ⟨pkOf sk, nonce⟩,
        compute_hash (.cipher ⟨⟨pkOf sk, nonce⟩, data⟩)) ∧
    mfind (phase2_data_encryption st data patient_id none nonce).1.capsule_storage
      patient_id = some ⟨pkOf sk, nonce⟩ ∧
    mfind (phase2_data_encryption st data patient_id none nonce).1.capsule_storage
      record_id = none ∧
    phase6_consent_approval_pre (phase2_data_encryption st data patient_id none nonce).1
        owner_vid viewer_vid record_id none =
      ((phase2_data_encryption st data patient_id none nonce).1,
        .error ("Original capsule not found for record " ++ record_id)) := by
  have h2 : phase2_data_encryption st data patient_id none nonce =
      ({ st with capsule_storage := (patient_id, ⟨pkOf sk, nonce⟩) :: st.capsule_storage },
        .ok (⟨⟨pkOf sk, nonce⟩, data⟩, ⟨pkOf sk, nonce⟩,
          compute_hash (.cipher ⟨⟨pkOf sk, nonce⟩, data⟩))) := by
    simp [phase2_data_encryption, hk, preEncrypt]
  rw [h2]
  have hlook : mfind ((patient_id, (⟨pkOf sk, nonce⟩ : Capsule)) :: st.capsule_storage)
      record_id = none := by
    rw [mfind_cons_ne _ _ _ _ (fun h => hne h.symm)]
    exact hcs
  refine ⟨rfl, by simp [mfind_cons_self], hlook, ?_⟩
  unfold phase6_consent_approval_pre
  simp [Option.orElse, hlook]

/-- Witness for C10 at a concrete state: patient `"p"` encrypts without a
record id; the capsule sits under `"p"`, and phase 6 for record `"R"`
fails. -/
theorem c10_witness :
    (phase2_data_encryption ⟨BC.empty, [("p", 5)], ⟨[], 0⟩, []⟩ [1, 2] "p" none 3).2 =
      .ok (⟨⟨pkOf 5, 3⟩, [1, 2]⟩, ⟨pkOf 5, 3⟩,
        compute_hash (.cipher ⟨⟨pkOf 5, 3⟩, [1, 2]⟩)) ∧
    mfind (phase2_data_encryption ⟨BC.empty, [("p", 5)], ⟨[], 0⟩, []⟩
      [1, 2] "p" none 3).1.capsule_storage "p" = some ⟨pkOf 5, 3⟩ ∧
    mfind (phase2_data_encryption ⟨BC.empty, [("p", 5)], ⟨[], 0⟩, []⟩
      [1, 2] "p" none 3).1.capsule_storage "R" = none ∧
    phase6_consent_approval_pre (phase2_data_encryption
        ⟨BC.empty, [("p", 5)], ⟨[], 0⟩, []⟩ [1, 2] "p" none 3).1 "p" "v" "R" none =
      ((phase2_data_encryption ⟨BC.empty, [("p", 5)], ⟨[], 0⟩, []⟩ [1, 2] "p" none 3).1,
        .error ("Original capsule not found for record " ++ "R")) :=
  c10_capsule_keyed_by_patient_breaks_later_lookup ⟨BC.empty, [("p", 5)], ⟨[], 0⟩, []⟩
    [1, 2] "p" "R" "p" "v" 3 5 (by decide) (by decide) (by decide)

/-- C5: in retrieval, once the consent is approved and the record and both
blobs are available, a ciphertext whose hash differs from the
registry-recorded hash aborts with `"Ciphertext hash mismatch"` — the trace
ends at the failed hash check, so neither fragment verification nor
decryption is ever reached; a fragment-hash mismatch likewise aborts with
`"Capsule hash mismatch"` before any cryptographic operation; and a
successful retrieval implies both downloaded blobs hashed to the recorded
values, so a corrupted stored ciphertext (which, for the ideal hash, means a
changed hash) can never produce a garbled but successful decryption. -/
theorem c5_integrity_mismatch_aborts_before_decryption (st : SimState)
    (v r o : String) (oc : Option Capsule) (consent : Consent) (record : Record)
    (fcid : String) (b fb : Blob)
    (hc : get_consent st.blockchain o v r = some consent)
    (hs : consent.status = "approved")
    (hr : get_record st.blockchain r = some record)
    (hfc : consent.capsule_cid = some fcid)
    (hdb : ipfsDownload st.ipfs record.cid = .ok b)
    (hdf : ipfsDownload st.ipfs fcid = .ok fb) :
    (compute_hash b ≠ record.hash →
      phase7_data_retrieval_decryption st v r o oc =
        (.error "Ciphertext hash mismatch",
         [.downloadEv record.cid, .downloadEv fcid, .hashCheckCipher false])) ∧
    (compute_hash b = record.hash → some (compute_hash fb) ≠ consent.capsule_hash →
      phase7_data_retrieval_decryption st v r o oc =
        (.error "Capsule hash mismatch",
         [.downloadEv record.cid, .downloadEv fcid, .hashCheckCipher true,
          .hashCheckFrag false])) ∧
    (∀ p tr, phase7_data_retrieval_decryption st v r o oc = (.ok p, tr) →
      compute_hash b = record.hash ∧ some (compute_hash fb) = consent.capsule_hash) := by
  refine ⟨?_, ?_, ?_⟩
  · intro hmis
    simp [phase7_data_retrieval_decryption, hc, hs, hr, hfc, hdb, hdf, hmis]
  · intro hok hmis
    simp [phase7_data_retrieval_decryption, hc, hs, hr, hfc, hdb, hdf, hok, hmis]
  · intro p tr h
    by_cases h1 : compute_hash b = record.hash
    · by_cases h2 : some (compute_hash fb) = consent.capsule_hash
      · exact ⟨h1, h2⟩
      · exfalso
        simp [phase7_data_retrieval_decryption, hc, hs, hr, hfc, hdb, hdf, h1, h2] at h
    · exfalso
      simp [phase7_data_retrieval_decryption, hc, hs, hr, hfc, hdb, hdf, h1] at h

/-- A concrete simulator state whose stored ciphertext blob disagrees with
the record-registered hash (the record says `.raw [1]`, the store holds
`.raw [9]`) while the fragment blob matches its recorded hash. -/
def corruptSt : SimState :=
  ⟨⟨[], [("R", ⟨"R", "o", "d", "cX", .raw [1]⟩)],
    [("o:v:R", ⟨"o", "v", "R", "approved", some "cF", some (.raw [2])⟩)], []⟩,
   [], ⟨[("cX", .raw [9]), ("cF", .raw [2])], 0⟩, []⟩

/-- Witness for C5: on `corruptSt` the corrupted ciphertext aborts retrieval
at the hash check, with no verification or decryption event. -/
theorem c5_witness :
    phase7_data_retrieval_decryption corruptSt "v" "R" "o" none =
      (.error "Ciphertext hash mismatch",
       [.downloadEv "cX", .downloadEv "cF", .hashCheckCipher false]) :=
  (c5_integrity_mismatch_aborts_before_decryption corruptSt "v" "R" "o" none
      ⟨"o", "v", "R", "approved", some "cF", some (.raw [2])⟩
      ⟨"R", "o", "d", "cX", .raw [1]⟩ "cF" (.raw [9]) (.raw [2])
      rfl rfl rfl rfl rfl rfl).1 (by decide)

/-- The three possible action traces of `decrypt_with_cfrag`: nothing (bad
cfrag bytes), a failed verification alone, or a successful verification
immediately followed by the decryption call. -/
theorem dwc_trace_cases (ciph : Blob) (cap : Capsule) (cfb : Blob) (skV pkO : Nat) :
    (decrypt_with_cfrag ciph cap cfb skV pkO).2 = [] ∨
    (decrypt_with_cfrag ciph cap cfb skV pkO).2 = [.verifyFrag false] ∨
    (decrypt_with_cfrag ciph cap cfb skV pkO).2 = [.verifyFrag true, .decryptFrag] := by
  unfold decrypt_with_cfrag
  cases cfb with
  | raw d => simp
  | cipher ct => simp
  | frag cf =>
    by_cases h : cfragChecks cf cap pkO pkO (pkOf skV)
    · cases ciph <;> simp [h]
    · simp [h]

/-- In every retrieval trace, either no decryption call appears at all, or
the trace ends with a successful fragment verification immediately followed
by the decryption call. -/
theorem phase7_trace_shape (st : SimState) (v r o : String) (oc : Option Capsule) :
    Ev.decryptFrag ∉ (phase7_data_retrieval_decryption st v r o oc).2 ∨
    ∃ pre, (phase7_data_retrieval_decryption st v r o oc).2 =
      pre ++ [Ev.verifyFrag true, Ev.decryptFrag] := by
  unfold phase7_data_retrieval_decryption
  cases hc : get_consent st.blockchain o v r with
  | none => left; simp
  | some consent =>
    dsimp only
    by_cases hs : consent.status ≠ "approved"
    · rw [if_pos hs]
      left; simp
    · rw [if_neg hs]
      cases hr : get_record st.blockchain r with
      | none => left; simp
      | some record =>
        dsimp only
        cases hdb : ipfsDownload st.ipfs record.cid with
        | error e => left; simp
        | ok ciphertext =>
          dsimp only
          cases hfc : consent.capsule_cid with
          | none => left; simp
          | some ccid =>
            dsimp only
            cases hdf : ipfsDownload st.ipfs ccid with
            | error e => left; simp
            | ok cfrag_data =>
              dsimp only
              by_cases h1 : compute_hash ciphertext ≠ record.hash
              · rw [if_pos h1]
                left; simp
              · rw [if_neg h1]
                by_cases h2 : some (compute_hash cfrag_data) ≠ consent.capsule_hash
                · rw [if_pos h2]
                  left; simp
                · rw [if_neg h2]
                  cases hcap : oc.orElse (fun _ => mfind st.capsule_storage r) with
                  | none => left; simp
                  | some capsule =>
                    dsimp only
                    cases hkv : mfind st.keys v with
                    | none => left; simp
                    | some viewer_sk =>
                      dsimp only
                      cases hko : mfind st.keys o with
                      | none => left; simp
                      | some owner_sk =>
                        dsimp only
                        cases hp : decrypt_with_cfrag ciphertext capsule cfrag_data
                            viewer_sk (pkOf owner_sk) with
                        | mk res tr =>
                          dsimp only
                          have ht' := dwc_trace_cases ciphertext capsule cfrag_data
                            viewer_sk (pkOf owner_sk)
                          rw [hp] at ht'
                          dsimp only at ht'
                          rcases ht' with ht | ht | ht
                          · left; simp [ht]
                          · left; simp [ht]
                          · right
                            refine ⟨[.downloadEv record.cid, .downloadEv ccid,
                              .hashCheckCipher true, .hashCheckFrag true], ?_⟩
                            simp [ht]

/-- C6: in the viewer decryption path the cfrag is always cryptographically
verified — against the original capsule, with the owner's public key as both
verifying and delegating key and the viewer's public key as receiving key —
before the fragment-based decryption is invoked: whenever a trace of
`decrypt_with_cfrag`, or of the whole retrieval phase, contains the
decryption call, that call is immediately preceded by a successful
verification event; decryption with an unverified fragment never occurs. -/
theorem c6_verify_always_precedes_decrypt :
    (∀ (ciph : Blob) (cap : Capsule) (cfb : Blob) (skV pkO : Nat),
      Ev.decryptFrag ∈ (decrypt_with_cfrag ciph cap cfb skV pkO).2 →
      ∃ pre, (decrypt_with_cfrag ciph cap cfb skV pkO).2 =
        pre ++ [Ev.verifyFrag true, Ev.decryptFrag]) ∧
    (∀ (st : SimState) (v r o : String) (oc : Option Capsule),
      Ev.decryptFrag ∈ (phase7_data_retrieval_decryption st v r o oc).2 →
      ∃ pre, (phase7_data_retrieval_decryption st v r o oc).2 =
        pre ++ [Ev.verifyFrag true, Ev.decryptFrag]) := by
  constructor
  · intro ciph cap cfb skV pkO h
    rcases dwc_trace_cases ciph cap cfb skV pkO with ht | ht | ht
    · rw [ht] at h; simp at h
    · rw [ht] at h; simp at h
    · exact ⟨[], by simp [ht]⟩
  · intro st v r o oc h
    rcases phase7_trace_shape st v r o oc with hnot | hex
    · exact absurd h hnot
    · exact hex

/-- Witness for C6 at a concrete successful decryption: the trace is exactly
a successful verification followed by the decryption call. -/
theorem c6_witness :
    Ev.decryptFrag ∈ (decrypt_with_cfrag (.cipher ⟨⟨1, 0⟩, [5]⟩) ⟨1, 0⟩
      (.frag ⟨⟨1, 1, 2⟩, ⟨1, 0⟩⟩) 2 1).2 ∧
    ∃ pre, (decrypt_with_cfrag (.cipher ⟨⟨1, 0⟩, [5]⟩) ⟨1, 0⟩
      (.frag ⟨⟨1, 1, 2⟩, ⟨1, 0⟩⟩) 2 1).2 =
        pre ++ [Ev.verifyFrag true, Ev.decryptFrag] :=
  ⟨by decide,
    c6_verify_always_precedes_decrypt.1 (.cipher ⟨⟨1, 0⟩, [5]⟩) ⟨1, 0⟩
      (.frag ⟨⟨1, 1, 2⟩, ⟨1, 0⟩⟩) 2 1 (by decide)⟩

/-- C4: for every plaintext and all pairwise-distinct principal identifiers,
the full delegated round trip — register the three principals, encrypt under
the owner's key, store, bind the record, request, approve with a fragment
derived from the capsule produced at encryption, retrieve — returns exactly
the original plaintext; and a fragment derived (re-encrypted) from any
different capsule fails cfrag verification against the encryption's capsule,
with no decryption call ever issued, so wrong plaintext is never returned. -/
theorem c4_delegated_round_trip (patient doctor viewer rid : String) (data : List Nat)
    (skP skD skV nonce : Nat)
    (hpd : patient ≠ doctor) (hpv : patient ≠ viewer) (hdv : doctor ≠ viewer) :
    (runScenario patient doctor viewer rid data skP skD skV nonce).1 = .ok data ∧
    (∀ (cap' : Capsule) (kf : KFrag) (ciph : Blob) (sk' pk' : Nat),
      cap' ≠ (⟨pkOf skP, nonce⟩ : Capsule) →
      (decrypt_with_cfrag ciph ⟨pkOf skP, nonce⟩ (.frag (reencrypt cap' kf)) sk' pk').1 =
        .error "cfrag verification failed" ∧
      Ev.decryptFrag ∉
        (decrypt_with_cfrag ciph ⟨pkOf skP, nonce⟩ (.frag (reencrypt cap' kf)) sk' pk').2) := by
  constructor
  · have hcid : cidOf 2 ≠ cidOf 1 := by decide
    simp [runScenario, phase1_user_registration, phase2_data_encryption,
      phase3_ipfs_storage, phase4_onchain_storage, phase5_access_request,
      phase6_consent_approval_pre, phase7_data_retrieval_decryption,
      register_user, store_record, request_access, approve_access,
      get_consent, get_record, mfind, initState, BC.empty, preEncrypt,
      compute_hash, ipfsUpload, ipfsDownload, decrypt_with_cfrag, cfragChecks,
      decrypt_reencrypted, reencrypt, generate_reencryption_key, pkOf,
      Option.orElse, hcid,
      hpd, hpv, hdv, Ne.symm hpd, Ne.symm hpv, Ne.symm hdv]
  · intro cap' kf ciph sk' pk' hne
    constructor
    · simp [decrypt_with_cfrag, reencrypt, cfragChecks, hne]
    · simp [decrypt_with_cfrag, reencrypt, cfragChecks, hne]

/-- Witness for C4 at concrete principals and payload: the round trip yields
`[1, 2]`, and a fragment derived from the foreign capsule `⟨9, 9⟩` fails
verification without any decryption call. -/
theorem c4_witness :
    (runScenario "P" "D" "V" "R1" [1, 2] 1 2 3 0).1 = .ok [1, 2] ∧
    ((decrypt_with_cfrag (.raw []) ⟨pkOf 1, 0⟩
        (.frag (reencrypt ⟨9, 9⟩ ⟨0, 0, 0⟩)) 0 0).1 =
      .error "cfrag verification failed" ∧
     Ev.decryptFrag ∉ (decrypt_with_cfrag (.raw []) ⟨pkOf 1, 0⟩
        (.frag (reencrypt ⟨9, 9⟩ ⟨0, 0, 0⟩)) 0 0).2) := by
  have h := c4_delegated_round_trip "P" "D" "V" "R1" [1, 2] 1 2 3 0
    (by decide) (by decide) (by decide)
  exact ⟨h.1, h.2 ⟨9, 9⟩ ⟨0, 0, 0⟩ (.raw []) 0 0 (by decide)⟩
